import Mathlib

/-!
Verification of the User REST controller
(`src/server/src/controllers/user.controller.ts`).

The repository ships only the controller; the `User` model, the
`UserRepository`, the bcrypt hasher and the JWT service it injects are
declared elsewhere.  Definitions for those collaborators are modelled
from the specification (each carries a doc comment saying so); the
controller bodies themselves are translated directly from the source.
-/

/-- The `User` entity.  Fields follow the attributes the controller and the
spec data model use: identifier, username, password, first name, role
reference, customer reference, `updatedAt` timestamp (modelled as `Nat`). -/
structure User where
  id : Option String
  username : String
  password : String
  firstName : String
  roleId : Option String
  customerId : Option String
  updatedAt : Option Nat
deriving Repr, DecidableEq

/-- A partial user body (`getModelSchemaRef(User, {partial: true})`):
every field optional. -/
structure UserPatch where
  username : Option String := none
  password : Option String := none
  firstName : Option String := none
  roleId : Option String := none
  customerId : Option String := none
  updatedAt : Option Nat := none
deriving Repr, DecidableEq

/-- Field override: a value supplied by a patch wins over the stored one. -/
def ovr {α : Type} (p : Option α) (o : Option α) : Option α :=
  match p with
  | some x => some x
  | none => o

/-- Apply a partial body to a stored record: supplied fields replace the
stored ones, absent fields are kept; the identifier is immutable. -/
def applyPatch (u : User) (p : UserPatch) : User :=
  { id := u.id
    username := p.username.getD u.username
    password := p.password.getD u.password
    firstName := p.firstName.getD u.firstName
    roleId := ovr p.roleId u.roleId
    customerId := ovr p.customerId u.customerId
    updatedAt := ovr p.updatedAt u.updatedAt }

/-- Errors the User Store surfaces (spec section 7 taxonomy, store part). -/
inductive StoreError where
  | NotFoundError
  | DuplicateUsername
deriving Repr, DecidableEq

/-- Authentication errors (spec section 7 taxonomy, auth part). -/
inductive AuthError where
  | InvalidCredentials
  | Unauthorized
  | InvalidToken
  | Expired
deriving Repr, DecidableEq

/-- The persisted state of the User Store: the sequence of stored records. -/
abbrev Store := List User

/-- An opaque query filter: an optional where-predicate plus the list of
relations to include (`{include: [...]}` in the source). -/
structure QueryFilter where
  whereP : Option (User → Bool) := none
  includes : List String := []

namespace Repo

/-- Modelled from the spec: `User Store.create(user) -> User |
ConflictError(DuplicateUsername)` — username uniqueness enforced at
creation, identifier system-generated. -/
def create (s : Store) (u : User) : Except StoreError (User × Store) :=
  if s.any (fun v => v.username == u.username) then
    .error .DuplicateUsername
  else
    let u' : User := { u with id := some (toString s.length) }
    .ok (u', s ++ [u'])

/-- Modelled from the spec: `User Store.count(filter?) -> integer` with the
minimal equality/field-selection filtering contract. -/
def count (s : Store) (w : Option (User → Bool)) : Nat :=
  (s.filter (w.getD (fun _ => true))).length

/-- Modelled from the spec: `User Store.find(filter?) -> sequence of User`;
the where-predicate selects records, `includes` only controls relation
population and does not change which records are returned. -/
def find (s : Store) (f : QueryFilter) : List User :=
  match f.whereP with
  | none => s
  | some p => s.filter p

/-- Modelled from the spec: `User Store.findById(id, filter?) -> User |
NotFoundError`. -/
def findById (s : Store) (id : String) : Except StoreError User :=
  match s.find? (fun u => u.id == some id) with
  | some u => .ok u
  | none => .error .NotFoundError

/-- Modelled from the spec: `User Store.updateAll(patch, filter?) ->
countUpdated` — applies the patch to every record the filter selects. -/
def updateAll (s : Store) (p : UserPatch) (w : Option (User → Bool)) :
    Nat × Store :=
  let pred := w.getD (fun _ => true)
  ((s.filter pred).length,
   s.map (fun u => if pred u then applyPatch u p else u))

/-- Modelled from the spec: `User Store.updateById(id, patch) -> ok |
NotFoundError` — patches the record with the given identifier, fails and
changes nothing when the identifier is absent. -/
def updateById (s : Store) (id : String) (p : UserPatch) :
    Except StoreError Store :=
  if s.any (fun u => u.id == some id) then
    .ok (s.map (fun u => if u.id == some id then applyPatch u p else u))
  else
    .error .NotFoundError

/-- Modelled from the spec: `User Store.replaceById(id, fullUser) -> ok |
NotFoundError` — replaces every field of the record except the immutable
identifier. -/
def replaceById (s : Store) (id : String) (u : User) :
    Except StoreError Store :=
  if s.any (fun v => v.id == some id) then
    .ok (s.map (fun v => if v.id == some id then { u with id := some id } else v))
  else
    .error .NotFoundError

/-- Modelled from the spec: `User Store.deleteById(id) -> ok |
NotFoundError` — hard delete, never soft-deleted. -/
def deleteById (s : Store) (id : String) : Except StoreError Store :=
  if s.any (fun u => u.id == some id) then
    .ok (s.filter (fun u => !(u.id == some id)))
  else
    .error .NotFoundError

end Repo

/-- The claim a session token embeds (spec: identifier, username, first
name), built in `login` from the authenticated principal. -/
structure Claim where
  id : String
  username : String
  firstname : String
deriving Repr, DecidableEq

/-- A signed session token.  Modelled from the spec: `Token Issuer.issue`
produces a signed, time-bounded token embedding the claim. -/
structure Token where
  claim : Claim
  expiresAt : Nat
deriving Repr, DecidableEq

namespace TokenIssuer

/-- Modelled from the spec: `issue(claim) -> token`, time-bounded. -/
def issue (now ttl : Nat) (c : Claim) : Token :=
  { claim := c, expiresAt := now + ttl }

end TokenIssuer

/-- The bearer material a request carries: no header, a malformed or
unsigned token, or a well-formed signed token. -/
inductive BearerHeader where
  | missing
  | malformed
  | token (t : Token)
deriving Repr

/-- Modelled from the spec: `Token Issuer.verify(token) -> claim |
AuthError(InvalidToken | Expired)`, with a missing header rejected as
Unauthorized by the bearer strategy. -/
def verifyBearer (now : Nat) : BearerHeader → Except AuthError Claim
  | .missing => .error .Unauthorized
  | .malformed => .error .InvalidToken
  | .token t => if t.expiresAt ≤ now then .error .Expired else .ok t.claim

namespace UserController

/-- `UserController.create` (source lines 106–121): replaces the submitted
password with the hasher's output, then delegates to the repository's
`create`.  The hasher itself is injected; it is passed here as the
function `hash`. -/
def create (hash : String → String) (s : Store) (input : User) :
    Except StoreError (User × Store) :=
  Repo.create s { input with password := hash input.password }

/-- `UserController.count` body (source lines 129–131): pass-through to
`userRepository.count(where)`. -/
def count (s : Store) (w : Option (User → Bool)) : Nat :=
  Repo.count s w

/-- `UserController.find` body (source lines 146–148): calls
`userRepository.find({include: ['customer', 'role']})` — note the caller's
`filter` parameter is not forwarded. -/
def find (s : Store) (filter : Option QueryFilter) : List User :=
  Repo.find s { whereP := none, includes := ["customer", "role"] }

/-- `UserController.updateAll` body (source lines 156–168): pass-through of
the partial body and where-clause to `userRepository.updateAll`. -/
def updateAll (s : Store) (p : UserPatch) (w : Option (User → Bool)) :
    Nat × Store :=
  Repo.updateAll s p w

/-- `UserController.findById` body (source lines 180–185): pass-through to
`userRepository.findById`. -/
def findById (s : Store) (id : String) : Except StoreError User :=
  Repo.findById s id

/-- `UserController.updateById` body (source lines 192–205): sets
`user.updatedAt = new Date()` (the ambient server clock `now`), then
delegates to `userRepository.updateById`.  On a store error the state is
unchanged. -/
def updateById (now : Nat) (s : Store) (id : String) (p : UserPatch) :
    Except StoreError Unit × Store :=
  match Repo.updateById s id { p with updatedAt := some now } with
  | .ok s' => (.ok (), s')
  | .error e => (.error e, s)

/-- `UserController.replaceById` body (source lines 212–217): passes the
request body to `userRepository.replaceById` unchanged; the ambient clock
`now` is available but never read by this handler. -/
def replaceById (now : Nat) (s : Store) (id : String) (u : User) :
    Except StoreError Unit × Store :=
  match Repo.replaceById s id u with
  | .ok s' => (.ok (), s')
  | .error e => (.error e, s)

/-- `UserController.deleteById` body (source lines 224–226): pass-through
to `userRepository.deleteById`. -/
def deleteById (s : Store) (id : String) : Except StoreError Unit × Store :=
  match Repo.deleteById s id with
  | .ok s' => (.ok (), s')
  | .error e => (.error e, s)

/-- `UserController.login` body (source lines 80–99): builds the user
profile `{securityId, id, username, firstname}` from the authenticated
principal and asks the JWT service for a token. -/
def login (now ttl : Nat) (currentUser : User) : Token :=
  TokenIssuer.issue now ttl
    { id := currentUser.id.getD ""
      username := currentUser.username
      firstname := currentUser.firstName }

end UserController

/-- Login credentials (the `CredentialSchema` body: username, password). -/
structure Credentials where
  username : String
  password : String
deriving Repr, DecidableEq

/-- Modelled from the spec: the Local strategy of the Authentication Gate —
find the user by username in the User Store, verify the submitted password
against the stored hash via the Password Hasher (`pverify`); on failure the
route must not proceed and the request fails with InvalidCredentials. -/
def localAuth (pverify : String → String → Bool) (s : Store)
    (cred : Credentials) : Except AuthError User :=
  match s.find? (fun u => u.username == cred.username) with
  | none => .error .InvalidCredentials
  | some u =>
      if pverify cred.password u.password then .ok u
      else .error .InvalidCredentials

/-- Modelled from the spec: the User model's response serialization —
"password (stored only as a hash, never returned in responses)",
"200, User (password omitted)": every attribute except the password is
rendered as a (field name, rendered value) pair. -/
def serializeUser (u : User) : List (String × String) :=
  [("id", u.id.getD ""),
   ("username", u.username),
   ("firstName", u.firstName),
   ("roleId", u.roleId.getD ""),
   ("customerId", u.customerId.getD ""),
   ("updatedAt", toString u.updatedAt)]

/-- A bearer-protected route: the Authentication Gate verifies the token
first; on failure it short-circuits with the auth error and the handler —
and hence the User Store — is never invoked and the state is untouched. -/
def bearerRoute {α : Type} (now : Nat) (hdr : BearerHeader)
    (handler : Claim → Store → α × Store) (s : Store) :
    Except AuthError α × Store :=
  match verifyBearer now hdr with
  | .error e => (.error e, s)
  | .ok c =>
      let r := handler c s
      (.ok r.1, r.2)

namespace Routes

/-- `POST /users/login` (Local strategy, then the `login` handler). -/
def login (now ttl : Nat) (pverify : String → String → Bool) (s : Store)
    (cred : Credentials) : Except AuthError Token :=
  match localAuth pverify s cred with
  | .error e => .error e
  | .ok u => .ok (UserController.login now ttl u)

/-- `POST /users` (unauthenticated): the `create` handler followed by the
response serialization of the created user. -/
def createUser (hash : String → String) (s : Store) (input : User) :
    Except StoreError (List (String × String)) × Store :=
  match UserController.create hash s input with
  | .ok r => (.ok (serializeUser r.1), r.2)
  | .error e => (.error e, s)

/-- `GET /users/count` (Bearer). -/
def count (now : Nat) (hdr : BearerHeader) (s : Store)
    (w : Option (User → Bool)) : Except AuthError Nat × Store :=
  bearerRoute now hdr (fun _ st => (UserController.count st w, st)) s

/-- `GET /users` (Bearer). -/
def find (now : Nat) (hdr : BearerHeader) (s : Store)
    (filter : Option QueryFilter) : Except AuthError (List User) × Store :=
  bearerRoute now hdr (fun _ st => (UserController.find st filter, st)) s

/-- `PATCH /users` (Bearer). -/
def updateAll (now : Nat) (hdr : BearerHeader) (s : Store) (p : UserPatch)
    (w : Option (User → Bool)) : Except AuthError Nat × Store :=
  bearerRoute now hdr (fun _ st => UserController.updateAll st p w) s

/-- `GET /users/{id}` (Bearer). -/
def findById (now : Nat) (hdr : BearerHeader) (s : Store) (id : String) :
    Except AuthError (Except StoreError User) × Store :=
  bearerRoute now hdr (fun _ st => (UserController.findById st id, st)) s

/-- `PATCH /users/{id}` (Bearer). -/
def updateById (now : Nat) (hdr : BearerHeader) (s : Store) (id : String)
    (p : UserPatch) : Except AuthError (Except StoreError Unit) × Store :=
  bearerRoute now hdr (fun _ st => UserController.updateById now st id p) s

/-- `PUT /users/{id}` (Bearer). -/
def replaceById (now : Nat) (hdr : BearerHeader) (s : Store) (id : String)
    (u : User) : Except AuthError (Except StoreError Unit) × Store :=
  bearerRoute now hdr (fun _ st => UserController.replaceById now st id u) s

/-- `DELETE /users/{id}` (Bearer). -/
def deleteById (now : Nat) (hdr : BearerHeader) (s : Store) (id : String) :
    Except AuthError (Except StoreError Unit) × Store :=
  bearerRoute now hdr (fun _ st => UserController.deleteById st id) s

end Routes

section Helpers

/-- Mapping an attribute over a mapped store, pointwise. -/
theorem map_attr_map {β : Type} (s : List User) (f : User → User)
    (a : User → β) (g : User → β) (h : ∀ x, a (f x) = g x) :
    (s.map f).map a = s.map g := by
  induction s with
  | nil => rfl
  | cons hd tl ih => simp [h, ih]

/-- Mapping two pointwise-equal attributes over a store. -/
theorem map_attr_congr {β : Type} (s : List User) (a g : User → β)
    (h : ∀ x ∈ s, a x = g x) : s.map a = s.map g := by
  induction s with
  | nil => rfl
  | cons hd tl ih =>
      simp only [List.map_cons]
      rw [h hd (by simp), ih (fun x hx => h x (by simp [hx]))]

/-- A sample bcrypt-like hasher for concrete instantiations: prepends a
marker, so the digest never equals the plaintext. -/
def sampleHash (p : String) : String := "$2b$" ++ p

theorem sampleHash_ne (p : String) : sampleHash p ≠ p := by
  intro h
  have hl := congrArg String.length h
  rw [sampleHash, String.length_append] at hl
  have h4 : ("$2b$" : String).length = 4 := rfl
  rw [h4] at hl
  omega

/-- A sample registration input. -/
def aliceInput : User :=
  { id := none, username := "alice", password := "p@ss", firstName := "Alice",
    roleId := none, customerId := none, updatedAt := none }

/-- A sample stored record, as the create path would persist it. -/
def aliceStored : User :=
  { id := some "1", username := "alice", password := sampleHash "p@ss",
    firstName := "Alice", roleId := none, customerId := none,
    updatedAt := some 1 }

end Helpers

/-- Claim C1: for every user-creation input containing a plaintext
password, `create` replaces the password with the hasher's hash of it
before delegating persistence to the store, so the stored password differs
from the submitted plaintext. -/
theorem C1_create_hashes_password (hash : String → String) (s : Store)
    (input : User) (hone : ∀ p, hash p ≠ p)
    (hfree : s.any (fun v => v.username == input.username) = false) :
    UserController.create hash s input =
      .ok ({ input with id := some (toString s.length),
                        password := hash input.password },
           s ++ [{ input with id := some (toString s.length),
                              password := hash input.password }]) ∧
    hash input.password ≠ input.password := by
  refine ⟨?_, hone input.password⟩
  simp [UserController.create, Repo.create, hfree]

/-- Witness for C1 at a concrete input. -/
theorem C1_create_hashes_password_witness :
    (UserController.create sampleHash [] aliceInput =
      .ok ({ aliceInput with id := some (toString ([] : Store).length),
                             password := sampleHash aliceInput.password },
           [] ++ [{ aliceInput with id := some (toString ([] : Store).length),
                                    password := sampleHash aliceInput.password }]) ∧
    sampleHash aliceInput.password ≠ aliceInput.password) :=
  C1_create_hashes_password sampleHash [] aliceInput sampleHash_ne rfl

/-- Claim C2: for every successful create-user request, the User value
returned to the caller contains no password field. -/
theorem C2_create_response_omits_password (hash : String → String)
    (s : Store) (input : User) (r : List (String × String)) (s' : Store)
    (h : Routes.createUser hash s input = (.ok r, s')) :
    "password" ∉ r.map Prod.fst := by
  unfold Routes.createUser at h
  cases hc : UserController.create hash s input with
  | ok p =>
      rw [hc] at h
      have hr : r = serializeUser p.1 := by
        have := congrArg Prod.fst h
        simp at this
        exact this.symm
      subst hr
      simp [serializeUser]
  | error e =>
      rw [hc] at h
      simp at h

/-- Witness for C2 at a concrete input. -/
theorem C2_create_response_omits_password_witness :
    "password" ∉
      ((Routes.createUser sampleHash [] aliceInput).1.toOption.getD []).map
        Prod.fst :=
  C2_create_response_omits_password sampleHash [] aliceInput
    ((Routes.createUser sampleHash [] aliceInput).1.toOption.getD [])
    (Routes.createUser sampleHash [] aliceInput).2 rfl

/-- Claim C3 (counterexample): list-users is NOT a pass-through of the
caller's filter — with a where-predicate that matches nothing, the store's
`find` on that filter returns nothing while the controller still returns
the stored user, because the handler discards its `filter` parameter and
always queries with the fixed `{include: [customer, role]}` filter. -/
theorem C3_find_not_passthrough_cex :
    UserController.find [aliceStored]
        (some { whereP := some (fun _ => false), includes := [] }) ≠
      Repo.find [aliceStored] { whereP := some (fun _ => false), includes := [] } := by
  simp [UserController.find, Repo.find]

/-- Claim C3 (amended): list-users ignores the caller's filter entirely:
it always invokes the store's `find` with the fixed filter that has no
where clause and includes the customer and role relations, and therefore
returns every stored user. -/
theorem C3_find_fixed_filter (s : Store) (filter : Option QueryFilter) :
    UserController.find s filter =
      Repo.find s { whereP := none, includes := ["customer", "role"] } ∧
    UserController.find s filter = s :=
  ⟨rfl, rfl⟩

/-- Claim C4 (counterexample): the hash invariant is not preserved by the
later mutations.  After the create path has stored Alice with a hashed
password, a patch-by-id carrying the plaintext password "plain" persists
exactly that plaintext — not its hash. -/
theorem C4_mutations_break_hash_invariant_cex :
    UserController.create sampleHash [] aliceInput =
      .ok ({ aliceInput with id := some "0", password := sampleHash "p@ss" },
           [{ aliceInput with id := some "0", password := sampleHash "p@ss" }]) ∧
    (UserController.updateById 7
        [{ aliceInput with id := some "0", password := sampleHash "p@ss" }]
        "0" { password := some "plain" }).2.map User.password = ["plain"] ∧
    sampleHash "plain" ≠ "plain" := by
  refine ⟨rfl, rfl, ?_⟩
  decide

/-- Claim C4 (amended): the later controller operations never hash: a
partial update or bulk update that carries no password leaves every stored
password unchanged, and a full replace persists the supplied password
verbatim; the hash invariant therefore survives exactly those mutations
that do not supply a password. -/
theorem C4_mutations_pass_password_through (now : Nat) (s : Store)
    (id : String) (p : UserPatch) (u : User) (w : Option (User → Bool))
    (hp : p.password = none) :
    ((UserController.updateById now s id p).2.map User.password =
      s.map User.password) ∧
    ((UserController.updateAll s p w).2.map User.password =
      s.map User.password) ∧
    (∀ v ∈ (UserController.replaceById now s id u).2,
      v.id = some id → v.password = u.password) := by
  have hpw : ∀ q : UserPatch, q.password = none →
      ∀ x : User, (applyPatch x q).password = x.password := by
    intro q hq x
    simp [applyPatch, hq]
  refine ⟨?_, ?_, ?_⟩
  · unfold UserController.updateById Repo.updateById
    by_cases hc : s.any (fun x => x.id == some id) = true
    · simp only [hc, if_pos]
      refine map_attr_map s _ _ _ ?_
      intro x
      by_cases hx : x.id == some id
      · simp [hx, hpw { p with updatedAt := some now } hp x]
      · simp [hx]
    · simp only [Bool.not_eq_true] at hc
      simp [hc]
  · unfold UserController.updateAll Repo.updateAll
    refine map_attr_map s _ _ _ ?_
    intro x
    by_cases hx : (w.getD (fun _ => true)) x
    · simp [hx, hpw p hp x]
    · simp [hx]
  · intro v hv hvid
    unfold UserController.replaceById Repo.replaceById at hv
    by_cases hc : s.any (fun x => x.id == some id) = true
    · simp only [hc, if_pos] at hv
      simp only [List.mem_map] at hv
      obtain ⟨x, hx, hxe⟩ := hv
      by_cases hxid : x.id == some id
      · rw [if_pos hxid] at hxe
        rw [← hxe]
      · rw [if_neg hxid] at hxe
        subst hxe
        exact absurd (by simp [hvid]) hxid
    · simp only [Bool.not_eq_true] at hc
      simp only [hc] at hv
      simp only [List.any_eq_false] at hc
      exact absurd (by simp [hvid]) (hc v hv)

/-- Witness for the amended C4 at a concrete input. -/
theorem C4_mutations_pass_password_through_witness :
    (((UserController.updateById 9 [aliceStored] "1" { firstName := some "Al" }).2.map
        User.password = [aliceStored].map User.password) ∧
    ((UserController.updateAll [aliceStored] { firstName := some "Al" } none).2.map
        User.password = [aliceStored].map User.password) ∧
    (∀ v ∈ (UserController.replaceById 9 [aliceStored] "1" aliceInput).2,
      v.id = some "1" → v.password = aliceInput.password)) :=
  C4_mutations_pass_password_through 9 [aliceStored] "1"
    { firstName := some "Al" } aliceInput none rfl

/-- Claim C5: for every authenticated login — valid credentials matching a
stored user — login returns a token whose embedded claim consists of the
stored user's identifier, username and first name, with the claim
identifier equal to the stored user's identifier. -/
theorem C5_login_token_claim (now ttl : Nat)
    (pverify : String → String → Bool) (s : Store) (cred : Credentials)
    (u : User) (i : String)
    (hfind : s.find? (fun v => v.username == cred.username) = some u)
    (hid : u.id = some i)
    (hpw : pverify cred.password u.password = true) :
    Routes.login now ttl pverify s cred =
      .ok { claim := { id := i, username := u.username,
                       firstname := u.firstName },
            expiresAt := now + ttl } := by
  unfold Routes.login localAuth
  rw [hfind]
  simp [hpw, UserController.login, TokenIssuer.issue, hid]

/-- Witness for C5 at a concrete input: Alice logs in against her stored
record with the matching password. -/
theorem C5_login_token_claim_witness :
    Routes.login 10 60 (fun p h => h == sampleHash p) [aliceStored]
        { username := "alice", password := "p@ss" } =
      .ok { claim := { id := "1", username := aliceStored.username,
                       firstname := aliceStored.firstName },
            expiresAt := 10 + 60 } :=
  C5_login_token_claim 10 60 (fun p h => h == sampleHash p) [aliceStored]
    { username := "alice", password := "p@ss" } aliceStored "1"
    (by decide) rfl (by decide)

/-- Claim C6: every request to a Bearer-protected route (count, list, bulk
patch, get-by-id, patch-by-id, put-by-id, delete-by-id) carrying a
missing, invalid or expired bearer token fails with the corresponding
Unauthorized/InvalidToken/Expired error, the store is left untouched, and
the User Store operation is never invoked (the outcome is the same for
every store state). -/
theorem C6_bearer_rejects_before_store (now : Nat) (hdr : BearerHeader)
    (e : AuthError) (h : verifyBearer now hdr = .error e) (s : Store)
    (w : Option (User → Bool)) (filter : Option QueryFilter)
    (p : UserPatch) (id : String) (u : User) :
    Routes.count now hdr s w = (.error e, s) ∧
    Routes.find now hdr s filter = (.error e, s) ∧
    Routes.updateAll now hdr s p w = (.error e, s) ∧
    Routes.findById now hdr s id = (.error e, s) ∧
    Routes.updateById now hdr s id p = (.error e, s) ∧
    Routes.replaceById now hdr s id u = (.error e, s) ∧
    Routes.deleteById now hdr s id = (.error e, s) := by
  unfold Routes.count Routes.find Routes.updateAll Routes.findById
    Routes.updateById Routes.replaceById Routes.deleteById bearerRoute
  rw [h]
  exact ⟨rfl, rfl, rfl, rfl, rfl, rfl, rfl⟩

/-- Witness for C6 at a concrete input: a request with no bearer header. -/
theorem C6_bearer_rejects_before_store_witness :
    (Routes.count 0 .missing [aliceStored] none =
        (.error .Unauthorized, [aliceStored]) ∧
    Routes.find 0 .missing [aliceStored] none =
        (.error .Unauthorized, [aliceStored]) ∧
    Routes.updateAll 0 .missing [aliceStored] { } none =
        (.error .Unauthorized, [aliceStored]) ∧
    Routes.findById 0 .missing [aliceStored] "1" =
        (.error .Unauthorized, [aliceStored]) ∧
    Routes.updateById 0 .missing [aliceStored] "1" { } =
        (.error .Unauthorized, [aliceStored]) ∧
    Routes.replaceById 0 .missing [aliceStored] "1" aliceInput =
        (.error .Unauthorized, [aliceStored]) ∧
    Routes.deleteById 0 .missing [aliceStored] "1" =
        (.error .Unauthorized, [aliceStored])) :=
  C6_bearer_rejects_before_store 0 .missing .Unauthorized rfl [aliceStored]
    none none { } "1" aliceInput

/-- Claim C7 (counterexample): not every mutation sets `updatedAt`.  With
the server clock at 100, a full replace whose body carries `updatedAt = 5`
persists 5 — the handler never touches the field — and a bulk update with
an empty body leaves the previous value 1 in place. -/
theorem C7_replace_does_not_set_updatedAt_cex :
    (UserController.replaceById 100 [aliceStored] "1"
        { aliceInput with updatedAt := some 5 }).2.map User.updatedAt =
      [some 5] ∧
    some 5 ≠ some (100 : Nat) ∧
    (UserController.updateAll [aliceStored] { } none).2.map User.updatedAt =
      [some 1] ∧
    some 1 ≠ some (100 : Nat) := by
  refine ⟨rfl, ?_, rfl, ?_⟩ <;> decide

/-- Claim C7 (amended): only partial update by id sets `updatedAt` — it
writes the server's current time to the patched record; full replace
persists the body's `updatedAt` verbatim, and a bulk update whose body
omits `updatedAt` leaves every record's `updatedAt` unchanged. -/
theorem C7_only_updateById_sets_updatedAt (now : Nat) (s : Store)
    (id : String) (p : UserPatch) (u : User) (w : Option (User → Bool))
    (hpu : p.updatedAt = none) :
    ((UserController.updateById now s id p).2.map User.updatedAt =
      s.map (fun x => if x.id == some id then some now else x.updatedAt)) ∧
    ((UserController.replaceById now s id u).2.map User.updatedAt =
      s.map (fun x => if x.id == some id then u.updatedAt else x.updatedAt)) ∧
    ((UserController.updateAll s p w).2.map User.updatedAt =
      s.map User.updatedAt) := by
  refine ⟨?_, ?_, ?_⟩
  · unfold UserController.updateById Repo.updateById
    by_cases hc : s.any (fun x => x.id == some id) = true
    · simp only [hc, if_pos]
      refine map_attr_map s _ _ _ ?_
      intro x
      by_cases hx : x.id == some id
      · simp [hx, applyPatch, ovr]
      · simp [hx]
    · simp only [Bool.not_eq_true] at hc
      simp only [hc, Bool.false_eq_true, if_false]
      refine map_attr_congr s _ _ ?_
      intro x hx
      have := (List.any_eq_false.mp hc) x hx
      simp only [Bool.not_eq_true] at this
      simp [this]
  · unfold UserController.replaceById Repo.replaceById
    by_cases hc : s.any (fun x => x.id == some id) = true
    · simp only [hc, if_pos]
      refine map_attr_map s _ _ _ ?_
      intro x
      by_cases hx : x.id == some id
      · simp [hx]
      · simp [hx]
    · simp only [Bool.not_eq_true] at hc
      simp only [hc, Bool.false_eq_true, if_false]
      refine map_attr_congr s _ _ ?_
      intro x hx
      have := (List.any_eq_false.mp hc) x hx
      simp only [Bool.not_eq_true] at this
      simp [this]
  · unfold UserController.updateAll Repo.updateAll
    refine map_attr_map s _ _ _ ?_
    intro x
    by_cases hx : (w.getD (fun _ => true)) x
    · simp [hx, applyPatch, ovr, hpu]
    · simp [hx]

/-- Witness for the amended C7 at a concrete input. -/
theorem C7_only_updateById_sets_updatedAt_witness :
    (((UserController.updateById 42 [aliceStored] "1" { firstName := some "Al" }).2.map
        User.updatedAt =
      [aliceStored].map
        (fun x => if x.id == some "1" then some 42 else x.updatedAt)) ∧
    ((UserController.replaceById 42 [aliceStored] "1" aliceInput).2.map
        User.updatedAt =
      [aliceStored].map
        (fun x => if x.id == some "1" then aliceInput.updatedAt
                  else x.updatedAt)) ∧
    ((UserController.updateAll [aliceStored] { firstName := some "Al" } none).2.map
        User.updatedAt = [aliceStored].map User.updatedAt)) :=
  C7_only_updateById_sets_updatedAt 42 [aliceStored] "1"
    { firstName := some "Al" } aliceInput none rfl

/-- Claim C8: for every id not present in the store, patch-by-id fails with
NotFoundError and leaves every stored record unchanged. -/
theorem C8_updateById_missing_id (now : Nat) (s : Store) (id : String)
    (p : UserPatch) (h : ∀ u ∈ s, u.id ≠ some id) :
    UserController.updateById now s id p = (.error .NotFoundError, s) := by
  have hany : s.any (fun u => u.id == some id) = false := by
    rw [List.any_eq_false]
    intro x hx
    simp only [beq_iff_eq]
    exact h x hx
  unfold UserController.updateById Repo.updateById
  simp [hany]

/-- Witness for C8 at a concrete input: patching an absent id. -/
theorem C8_updateById_missing_id_witness :
    UserController.updateById 5 [aliceStored] "2" { firstName := some "Q" } =
      (.error .NotFoundError, [aliceStored]) :=
  C8_updateById_missing_id 5 [aliceStored] "2" { firstName := some "Q" }
    (by decide)

/-- Claim C9: a successful delete-by-id followed by find-by-id on the same
id yields NotFoundError. -/
theorem C9_delete_then_find_not_found (s : Store) (id : String) (r : Unit)
    (s' : Store) (h : UserController.deleteById s id = (.ok r, s')) :
    UserController.findById s' id = .error .NotFoundError := by
  unfold UserController.deleteById Repo.deleteById at h
  by_cases hc : s.any (fun u => u.id == some id) = true
  · simp only [hc, if_pos] at h
    have hs' : s' = s.filter (fun u => !(u.id == some id)) :=
      (congrArg Prod.snd h).symm
    subst hs'
    unfold UserController.findById Repo.findById
    have hnone :
        (s.filter (fun u => !(u.id == some id))).find?
          (fun u => u.id == some id) = none := by
      rw [List.find?_eq_none]
      intro x hx
      have := (List.mem_filter.mp hx).2
      simp only [Bool.not_eq_true'] at this
      simp [this]
    rw [hnone]
  · simp only [Bool.not_eq_true] at hc
    simp only [hc, Bool.false_eq_true, if_false] at h
    exact absurd (congrArg Prod.fst h) (by simp)

/-- Witness for C9 at a concrete input: delete Alice, then look her up. -/
theorem C9_delete_then_find_not_found_witness :
    UserController.findById
        (UserController.deleteById [aliceStored] "1").2 "1" =
      .error .NotFoundError :=
  C9_delete_then_find_not_found [aliceStored] "1" ()
    (UserController.deleteById [aliceStored] "1").2 rfl

/-- Claim C10: the `updatedAt` persisted by patch-by-id is the server's
current time: a caller-supplied `updatedAt` — whatever its value — is
overwritten before the store is invoked (the outcome is identical for
every caller-supplied value), and every patched record ends up carrying
the server time. -/
theorem C10_client_updatedAt_overwritten (now t : Nat) (s : Store)
    (id : String) (p : UserPatch) :
    (UserController.updateById now s id { p with updatedAt := some t } =
      UserController.updateById now s id p) ∧
    (∀ v ∈ (UserController.updateById now s id p).2,
      v.id = some id → v.updatedAt = some now) := by
  constructor
  · rfl
  · intro v hv hvid
    unfold UserController.updateById Repo.updateById at hv
    by_cases hc : s.any (fun x => x.id == some id) = true
    · simp only [hc, if_pos] at hv
      simp only [List.mem_map] at hv
      obtain ⟨x, hx, hxe⟩ := hv
      by_cases hxid : x.id == some id
      · rw [if_pos hxid] at hxe
        rw [← hxe]
        simp [applyPatch, ovr]
      · rw [if_neg hxid] at hxe
        subst hxe
        exact absurd (by simp [hvid]) hxid
    · simp only [Bool.not_eq_true] at hc
      simp only [hc] at hv
      simp only [List.any_eq_false] at hc
      exact absurd (by simp [hvid]) (hc v hv)

/-- Witness for C10 at a concrete input: the patch carries `updatedAt = 999`
while the server clock reads 42. -/
theorem C10_client_updatedAt_overwritten_witness :
    ((UserController.updateById 42 [aliceStored] "1"
        { firstName := some "Al", updatedAt := some 999 } =
      UserController.updateById 42 [aliceStored] "1"
        { firstName := some "Al" }) ∧
    (∀ v ∈ (UserController.updateById 42 [aliceStored] "1"
        { firstName := some "Al" }).2,
      v.id = some "1" → v.updatedAt = some 42)) :=
  C10_client_updatedAt_overwritten 42 999 [aliceStored] "1"
    { firstName := some "Al" }
